import Mathlib

/-!
Shallow embedding of the in-memory CRUD HTTP server
(`src/Example_Ussage/Inbuilt_Modules/01_http/final/index.js`) and of the
final calculator CLI (`src/Example_Ussage/Terminal_Input_Output/final1.js`).

The JavaScript runtime primitives that the server code calls are modelled
as follows:

* `JSON.parse` of the raw request body is not re-implemented (it is the
  runtime library, not repository code).  A request carries the *result*
  of `JSON.parse` as `Option JSValue`: `none` means `JSON.parse` threw,
  `some v` means it returned the JSON value `v`.  JSON numbers are
  modelled as integers; no routed code path distinguishes fractional
  values (numbers are only constructed by `Date.now()` / `parseInt`,
  which are integral, and otherwise carried around opaquely).
* JavaScript `undefined` appears exactly where the server can produce it:
  a missing `name` property.  An item's `name` is `Option JSValue`, with
  `none` standing for `undefined`.
* `Date.now()` is a parameter `t` of the request-handling step.
* `parseInt(s, 10)` and `String.prototype.split('/')` /
  `String.prototype.startsWith` are modelled character-exactly for ASCII
  input (`jsParseInt`, `splitSlash`, `jsStartsWith`); `NaN` is modelled
  as `none`, and the comparison `item.id === id` with `id = NaN` is
  `eqId`, which is `false` when the parse produced `none` — every stored
  `id` is an integral number, so this is exactly the JS `===` behaviour.
-/

/-- A JSON value as returned by `JSON.parse`. -/
inductive JSValue where
  | null
  | bool (b : Bool)
  | num (n : Int)
  | str (s : String)
  | arr (elems : List JSValue)
  | obj (fields : List (String × JSValue))
deriving Repr

/-- A stored item: `{ id: Date.now(), name: parsedBody.name }`.
`name = none` models the JavaScript value `undefined`. -/
structure Item where
  id : Int
  name : Option JSValue
deriving Repr

/-- An HTTP request as the router sees it: the method, the already-parsed
`pathname` of the URL, and the result of `JSON.parse` on the fully
buffered body (`none` = the parse threw). -/
structure Request where
  method : String
  pathname : String
  body : Option JSValue
deriving Repr

/-- A response body: either the fixed HTML UI document or a JSON value
(serialised on the wire with `JSON.stringify`). -/
inductive RespBody where
  | html
  | json (v : JSValue)
deriving Repr

/-- An HTTP response: status code and body. -/
structure Response where
  status : Nat
  body : RespBody
deriving Repr

/-- The JSON object `{"message": s}` — the shape of every non-HTML
confirmation/error body. -/
def msg (s : String) : JSValue :=
  .obj [("message", .str s)]

/-- Property lookup on a parsed JSON object.  `JSON.parse` keeps the last
occurrence of a duplicated key, so the lookup scans from the right. -/
def jsLookup (fields : List (String × JSValue)) (key : String) : Option JSValue :=
  fields.reverse.lookup key

/-- Property read `v[key]` on a JSON value, as in `parsedBody.name`:
`undefined` (`none`) on every non-object, the field on an object. -/
def jsGetField (v : JSValue) (key : String) : Option JSValue :=
  match v with
  | .obj fields => jsLookup fields key
  | _ => none

/-- The expression `parsedBody.name`.  On `null` it throws a `TypeError`
(modelled as `Except.error`); on any other value it yields the property,
which is `undefined` (`none`) for non-objects and objects without a
`name` field. -/
def jsGetName (v : JSValue) : Except Unit (Option JSValue) :=
  match v with
  | .null => .error ()
  | .obj fields => .ok (jsLookup fields "name")
  | _ => .ok none

/-- The value of `parsedBody.name` for a non-null `parsedBody`. -/
def nameOf (v : JSValue) : Option JSValue :=
  match v with
  | .obj fields => jsLookup fields "name"
  | _ => none

/-- The comparison `item.id === id` where `id = parseInt(...)` may be
`NaN` (`none`): `NaN` compares unequal to everything. -/
def eqId (itemId : Int) (pid : Option Int) : Bool :=
  match pid with
  | some n => itemId == n
  | none => false

/-- JavaScript `String.prototype.split('/')` on the character list. -/
def splitSlashGo : List Char → List String
  | [] => [""]
  | c :: cs =>
    if c = '/' then "" :: splitSlashGo cs
    else
      match splitSlashGo cs with
      | [] => [String.mk [c]]
      | t :: ts => String.mk (c :: t.data) :: ts

/-- The expression `pathname.split("/")`. -/
def splitSlash (s : String) : List String :=
  splitSlashGo s.data

/-- The expression `pathname.split("/")[2]`; the default covers the (unreachable here)
out-of-range access, whose `undefined` would make `parseInt` yield `NaN`. -/
def pathSegment2 (p : String) : String :=
  (splitSlash p).getD 2 ""

/-- The longest prefix of decimal digits. -/
def leadingDigits (cs : List Char) : List Char :=
  cs.takeWhile (fun c => c.isDigit)

/-- The value of a list of decimal digits. -/
def digitsVal (cs : List Char) : Nat :=
  cs.foldl (fun a c => 10 * a + (c.toNat - 48)) 0

/-- JavaScript `parseInt(s, 10)`: skip leading whitespace, read an optional sign and
then the longest prefix of decimal digits; `NaN` (here `none`) when no
digit was read. -/
def jsParseInt (s : String) : Option Int :=
  let cs := s.data.dropWhile (fun c => c = ' ' ∨ c = '\t' ∨ c = '\n' ∨ c = '\r')
  match cs with
  | '-' :: rest =>
    let d := leadingDigits rest
    if d.isEmpty then none else some (-(digitsVal d : Int))
  | '+' :: rest =>
    let d := leadingDigits rest
    if d.isEmpty then none else some ((digitsVal d : Int))
  | _ =>
    let d := leadingDigits cs
    if d.isEmpty then none else some ((digitsVal d : Int))

/-- JavaScript `s.startsWith(pre)` (`String.prototype.startsWith`). -/
def jsStartsWith (s pre : String) : Bool :=
  pre.data.isPrefixOf s.data

/-- Serialisation (`JSON.stringify`) of one stored item.  `JSON.stringify` omits object
properties whose value is `undefined`, so an item with `name = undefined`
serialises as `{"id": n}` alone. -/
def itemToJSON (it : Item) : JSValue :=
  .obj (("id", .num it.id) ::
    (match it.name with
     | some v => [("name", v)]
     | none => []))

/-- The `POST /items` handler body (lines 114–125 of the source): parse
the body, build `{ id: Date.now(), name: parsedBody.name }`, push it and
answer 201; any throw (parse failure, or `.name` on `null`) answers 400. -/
def postStep (t : Int) (items : List Item) (body : Option JSValue) :
    List Item × Response :=
  match body with
  | none => (items, ⟨400, .json (msg "Invalid request")⟩)
  | some v =>
    match jsGetName v with
    | .error _ => (items, ⟨400, .json (msg "Invalid request")⟩)
    | .ok nm => (items ++ [⟨t, nm⟩], ⟨201, .json (msg "Item added")⟩)

/-- In-place update of the first item whose `id` matches, as performed by
`items.find(...)` followed by `item.name = parsedBody.name`. -/
def updateFirst (items : List Item) (pid : Option Int) (nm : Option JSValue) :
    List Item :=
  match items with
  | [] => []
  | it :: rest =>
    if eqId it.id pid then ⟨it.id, nm⟩ :: rest
    else it :: updateFirst rest pid nm

/-- The `PUT /items/{id}` handler body (lines 133–149): parse the body,
find the first item with matching id; if found, evaluate
`parsedBody.name` (throws on `null`) and overwrite, answering 200;
404 when absent; any throw answers 400. -/
def putStep (items : List Item) (pid : Option Int) (body : Option JSValue) :
    List Item × Response :=
  match body with
  | none => (items, ⟨400, .json (msg "Invalid request")⟩)
  | some v =>
    match items.find? (fun it => eqId it.id pid) with
    | some _ =>
      match jsGetName v with
      | .error _ => (items, ⟨400, .json (msg "Invalid request")⟩)
      | .ok nm => (updateFirst items pid nm, ⟨200, .json (msg "Item updated")⟩)
    | none => (items, ⟨404, .json (msg "Item not found")⟩)

/-- The `DELETE /items/{id}` handler (lines 150–154):
`items = items.filter(item => item.id !== id)` and an unconditional 200. -/
def delStep (items : List Item) (pid : Option Int) : List Item × Response :=
  (items.filter (fun it => !eqId it.id pid), ⟨200, .json (msg "Item deleted")⟩)

/-- One request/response cycle of the server (the `http.createServer`
listener, lines 99–159): the if/else chain dispatching on pathname and
method, returning the new store and the response. -/
def serverStep (t : Int) (items : List Item) (req : Request) :
    List Item × Response :=
  if req.pathname = "/" then
    (items, ⟨200, .html⟩)
  else if req.pathname = "/items" ∧ req.method = "GET" then
    (items, ⟨200, .json (.arr (items.map itemToJSON))⟩)
  else if req.pathname = "/items" ∧ req.method = "POST" then
    postStep t items req.body
  else if jsStartsWith req.pathname "/items/" = true ∧ req.method = "PUT" then
    putStep items (jsParseInt (pathSegment2 req.pathname)) req.body
  else if jsStartsWith req.pathname "/items/" = true ∧ req.method = "DELETE" then
    delStep items (jsParseInt (pathSegment2 req.pathname))
  else
    (items, ⟨404, .json (msg "Not Found")⟩)

/-- Stores reachable from the initial empty `items` array by any sequence
of requests (each with its own `Date.now()` value `t`). -/
inductive Reachable : List Item → Prop where
  | empty : Reachable []
  | step (t : Int) (req : Request) {s : List Item} :
      Reachable s → Reachable (serverStep t s req).1

/-- A request whose body, when it stores a name at all, stores a string:
bodies that fail to parse or parse to `null` never reach the store, so
only an `Except.ok` result of `parsedBody.name` is constrained. -/
def goodBody (req : Request) : Bool :=
  match req.body with
  | none => true
  | some v =>
    match jsGetName v with
    | .error _ => true
    | .ok (some (.str _)) => true
    | .ok _ => false

/-- Stores reachable using only requests with `goodBody`. -/
inductive ReachableGood : List Item → Prop where
  | empty : ReachableGood []
  | step (t : Int) (req : Request) {s : List Item} :
      ReachableGood s → goodBody req = true →
      ReachableGood (serverStep t s req).1

/-- Whether a stored item's `name` is a string. -/
def nameIsStr (it : Item) : Bool :=
  match it.name with
  | some (.str _) => true
  | _ => false

/-!  The final calculator CLI (`Terminal_Input_Output/final1.js`).
Numbers are modelled as rationals: the CLI feeds `Number(argv)` values
through exact arithmetic branches (`+`, `-`, `*`, `/`, guarded by the
zero test); IEEE-754 rounding is abstracted away.  `Math.pow`,
`Math.sqrt` and `%`, whose results are not rational in general, are kept
as symbolic constructors mirroring the source expressions verbatim. -/

/-- The value returned by `Calculate`: a number, a symbolic
`Math.pow`/`Math.sqrt`/`%` result, or an error/info string. -/
inductive CalcResult where
  | num (v : Rat)
  | remOf (a b : Rat)
  | powOf (a b : Rat)
  | sqrtOf (a : Rat)
  | str (s : String)
deriving Repr, DecidableEq

/-- The `Calculate(num1, num2, operation)` switch of `final1.js`. -/
def Calculate (num1 num2 : Rat) (operation : String) : CalcResult :=
  match operation with
  | "add" => .num (num1 + num2)
  | "sub" => .num (num1 - num2)
  | "div" =>
    if num2 = 0 then .str "Error: Division by zero!"
    else .num (num1 / num2)
  | "mul" => .num (num1 * num2)
  | "rem" => .remOf num1 num2
  | "pow" => .powOf num1 num2
  | "sqrt" =>
    if num1 < 0 then .str "Error: Cannot compute the square root of a negative number!"
    else .sqrtOf num1
  | _ => .str "Invalid operator"

example : jsParseInt "5" = some 5 := by decide
example : jsParseInt "abc" = none := by decide
example : jsParseInt "  -42xyz" = some (-42) := by decide
example : pathSegment2 "/items/17" = "17" := by decide
example : splitSlash "/items/5" = ["", "items", "5"] := by decide
example : jsStartsWith "/items/5" "/items/" = true := by decide
example : jsStartsWith "/items" "/items/" = false := by decide
example :
    serverStep 7 [] ⟨"POST", "/items", some (.obj [("name", .str "X")])⟩ =
      ([⟨7, some (.str "X")⟩], ⟨201, .json (msg "Item added")⟩) := by rfl
example :
    serverStep 7 [] ⟨"POST", "/items", some .null⟩ =
      ([], ⟨400, .json (msg "Invalid request")⟩) := by rfl

/-! ### Helper lemmas about the router dispatch -/

theorem ne_root_of_startsWith {p : String}
    (hp : jsStartsWith p "/items/" = true) : p ≠ "/" := by
  intro h
  subst h
  exact absurd hp (by decide)

theorem ne_items_of_startsWith {p : String}
    (hp : jsStartsWith p "/items/" = true) : p ≠ "/items" := by
  intro h
  subst h
  exact absurd hp (by decide)

theorem serverStep_get (t : Int) (s : List Item) (b : Option JSValue) :
    serverStep t s ⟨"GET", "/items", b⟩ =
      (s, ⟨200, .json (.arr (s.map itemToJSON))⟩) := by
  simp [serverStep]

theorem serverStep_post (t : Int) (s : List Item) (b : Option JSValue) :
    serverStep t s ⟨"POST", "/items", b⟩ = postStep t s b := by
  simp [serverStep]

theorem serverStep_put (t : Int) (s : List Item) (p : String) (b : Option JSValue)
    (hp : jsStartsWith p "/items/" = true) :
    serverStep t s ⟨"PUT", p, b⟩ =
      putStep s (jsParseInt (pathSegment2 p)) b := by
  simp [serverStep, ne_root_of_startsWith hp, ne_items_of_startsWith hp, hp]

theorem serverStep_del (t : Int) (s : List Item) (p : String) (b : Option JSValue)
    (hp : jsStartsWith p "/items/" = true) :
    serverStep t s ⟨"DELETE", p, b⟩ =
      delStep s (jsParseInt (pathSegment2 p)) := by
  simp [serverStep, ne_root_of_startsWith hp, ne_items_of_startsWith hp, hp]

theorem jsGetName_of_ne_null {v : JSValue} (h : v ≠ .null) :
    jsGetName v = .ok (nameOf v) := by
  cases v <;> simp_all [jsGetName, nameOf]

/-! ### Helper lemmas about `updateFirst` -/

theorem updateFirst_split (s : List Item) (pid : Option Int) (nm : Option JSValue)
    (it : Item) (h : s.find? (fun x => eqId x.id pid) = some it) :
    ∃ pre post, s = pre ++ it :: post ∧
      (∀ x ∈ pre, eqId x.id pid = false) ∧ eqId it.id pid = true ∧
      updateFirst s pid nm = pre ++ ⟨it.id, nm⟩ :: post := by
  induction s with
  | nil => simp at h
  | cons a rest ih =>
    by_cases ha : eqId a.id pid = true
    · rw [List.find?_cons_of_pos (p := fun x => eqId x.id pid) rest ha] at h
      injection h with h
      subst h
      exact ⟨[], rest, by simp, by simp, ha, by simp [updateFirst, ha]⟩
    · rw [List.find?_cons_of_neg (p := fun x => eqId x.id pid) rest ha] at h
      obtain ⟨pre, post, hs, hpre, hit, hu⟩ := ih h
      refine ⟨a :: pre, post, by simp [hs], ?_, hit, ?_⟩
      · intro x hx
        rcases List.mem_cons.mp hx with hx | hx
        · subst hx
          exact Bool.eq_false_iff.mpr ha
        · exact hpre x hx
      · simp [updateFirst, ha, hu]

theorem updateFirst_of_not_found (s : List Item) (pid : Option Int)
    (nm : Option JSValue) (h : ∀ x ∈ s, eqId x.id pid = false) :
    updateFirst s pid nm = s := by
  induction s with
  | nil => rfl
  | cons a rest ih =>
    have ha := h a (by simp)
    simp only [updateFirst, ha]
    simp only [Bool.false_eq_true, if_false]
    rw [ih (fun x hx => h x (List.mem_cons_of_mem a hx))]

theorem mem_updateFirst {it : Item} {s : List Item} {pid : Option Int}
    {nm : Option JSValue} (h : it ∈ updateFirst s pid nm) :
    it ∈ s ∨ it.name = nm := by
  induction s with
  | nil => simp [updateFirst] at h
  | cons a rest ih =>
    by_cases ha : eqId a.id pid = true
    · simp only [updateFirst, ha, if_true] at h
      rcases List.mem_cons.mp h with h | h
      · subst h
        exact .inr rfl
      · exact .inl (List.mem_cons_of_mem a h)
    · simp only [updateFirst, ha] at h
      simp only [Bool.false_eq_true, if_false] at h
      rcases List.mem_cons.mp h with h | h
      · exact .inl (h ▸ List.mem_cons_self a rest)
      · rcases ih h with h | h
        · exact .inl (List.mem_cons_of_mem a h)
        · exact .inr h

/-! ### Membership in the store after one step -/

theorem mem_postStep {it : Item} {t : Int} {s : List Item} {b : Option JSValue}
    (h : it ∈ (postStep t s b).1) :
    it ∈ s ∨ ∃ v nm, b = some v ∧ jsGetName v = .ok nm ∧ it.name = nm := by
  match b with
  | none => exact .inl h
  | some v =>
    simp only [postStep] at h
    match hv : jsGetName v with
    | .error e =>
      rw [hv] at h
      exact .inl h
    | .ok nm =>
      rw [hv] at h
      rcases List.mem_append.mp h with h | h
      · exact .inl h
      · simp at h
        exact .inr ⟨v, nm, rfl, hv, by rw [h]⟩

theorem mem_putStep {it : Item} {s : List Item} {pid : Option Int}
    {b : Option JSValue} (h : it ∈ (putStep s pid b).1) :
    it ∈ s ∨ ∃ v nm, b = some v ∧ jsGetName v = .ok nm ∧ it.name = nm := by
  match b with
  | none => exact .inl h
  | some v =>
    simp only [putStep] at h
    match hf : s.find? (fun x => eqId x.id pid) with
    | none =>
      rw [hf] at h
      exact .inl h
    | some it0 =>
      rw [hf] at h
      match hv : jsGetName v with
      | .error e =>
        rw [hv] at h
        exact .inl h
      | .ok nm =>
        rw [hv] at h
        rcases mem_updateFirst h with h | h
        · exact .inl h
        · exact .inr ⟨v, nm, rfl, hv, h⟩

theorem mem_serverStep {it : Item} {t : Int} {s : List Item} {req : Request}
    (h : it ∈ (serverStep t s req).1) :
    it ∈ s ∨ ∃ v nm, req.body = some v ∧ jsGetName v = .ok nm ∧ it.name = nm := by
  simp only [serverStep] at h
  split at h
  · exact .inl h
  · split at h
    · exact .inl h
    · split at h
      · exact mem_postStep h
      · split at h
        · exact mem_putStep h
        · split at h
          · exact .inl (List.mem_filter.mp h).1
          · exact .inl h

/-! ### Claim theorems -/

/-- C10: In the final calculator CLI, `Calculate` with operation `"div"`
returns the string `"Error: Division by zero!"` whenever the second
operand equals 0, and returns the quotient `num1 / num2` for every
non-zero second operand; in the zero case only the error string is
produced, never a numeric result. -/
theorem calculate_div_guard (num1 num2 : Rat) :
    (num2 = 0 → Calculate num1 num2 "div" = .str "Error: Division by zero!") ∧
    (num2 ≠ 0 → Calculate num1 num2 "div" = .num (num1 / num2)) := by
  constructor
  · intro h
    simp [Calculate, h]
  · intro h
    simp [Calculate, h]

theorem calculate_div_guard_witness :
    Calculate 5 0 "div" = .str "Error: Division by zero!" ∧
    Calculate 6 3 "div" = .num 2 := by
  refine ⟨(calculate_div_guard 5 0).1 rfl, ?_⟩
  have h := (calculate_div_guard 6 3).2 (by norm_num)
  rw [h]
  norm_num

/-- C5: a POST /items request whose body does not parse as JSON answers
400 and leaves the store unchanged, in particular with the same length. -/
theorem post_bad_body_unchanged (t : Int) (s : List Item) :
    serverStep t s ⟨"POST", "/items", none⟩ =
      (s, ⟨400, .json (msg "Invalid request")⟩) ∧
    (serverStep t s ⟨"POST", "/items", none⟩).1.length = s.length := by
  rw [serverStep_post]
  exact ⟨rfl, rfl⟩

/-- C8: a DELETE /items/{id} request whose {id} segment does not parse as
an integer (`parseInt` yields `NaN`) leaves the store completely unchanged
and still answers 200 with message "Item deleted", because no item's id
compares equal to `NaN`. -/
theorem delete_nan_id_noop (t : Int) (s : List Item) (p : String)
    (b : Option JSValue)
    (hp : jsStartsWith p "/items/" = true)
    (hn : jsParseInt (pathSegment2 p) = none) :
    serverStep t s ⟨"DELETE", p, b⟩ = (s, ⟨200, .json (msg "Item deleted")⟩) := by
  rw [serverStep_del t s p b hp, hn]
  simp [delStep, eqId]

theorem delete_nan_id_noop_witness :
    serverStep 3 [⟨1, some (.str "a")⟩] ⟨"DELETE", "/items/abc", none⟩ =
      ([⟨1, some (.str "a")⟩], ⟨200, .json (msg "Item deleted")⟩) :=
  delete_nan_id_noop 3 [⟨1, some (.str "a")⟩] "/items/abc" none
    (by decide) (by decide)

/-- C3: a DELETE /items/{id} request whose {id} parses to the integer n
replaces the store by its filter keeping the items with `id ≠ n` (all
matching items removed, possibly several), the remaining items keep their
relative order (the result is a sublist), every non-matching item is
kept, and the response is 200 whether or not anything matched. -/
theorem delete_removes_matching (t : Int) (s : List Item) (p : String)
    (b : Option JSValue) (n : Int)
    (hp : jsStartsWith p "/items/" = true)
    (hn : jsParseInt (pathSegment2 p) = some n) :
    serverStep t s ⟨"DELETE", p, b⟩ =
      (s.filter (fun it => !(it.id == n)), ⟨200, .json (msg "Item deleted")⟩) ∧
    (∀ it ∈ (serverStep t s ⟨"DELETE", p, b⟩).1, it.id ≠ n) ∧
    List.Sublist (serverStep t s ⟨"DELETE", p, b⟩).1 s ∧
    (∀ it ∈ s, it.id ≠ n → it ∈ (serverStep t s ⟨"DELETE", p, b⟩).1) := by
  rw [serverStep_del t s p b hp, hn]
  refine ⟨by simp [delStep, eqId], ?_, ?_, ?_⟩
  · intro it hit
    have h2 := (List.mem_filter.mp hit).2
    simp [eqId] at h2
    exact h2
  · exact List.filter_sublist s
  · intro it hit hne
    exact List.mem_filter.mpr ⟨hit, by simp [eqId, hne]⟩

theorem delete_removes_matching_witness :
    serverStep 3 [⟨1, some (.str "a")⟩, ⟨2, some (.str "b")⟩, ⟨1, none⟩]
        ⟨"DELETE", "/items/1", none⟩ =
      ([⟨2, some (.str "b")⟩], ⟨200, .json (msg "Item deleted")⟩) := by
  have h := (delete_removes_matching 3
    [⟨1, some (.str "a")⟩, ⟨2, some (.str "b")⟩, ⟨1, none⟩]
    "/items/1" none 1 (by decide) (by decide)).1
  rw [h]
  rfl

/-- C1 counterexample: the body `"null"` parses as JSON (to `null`), yet
the server answers 400 and appends nothing — not 201 with one new item —
because `parsedBody.name` throws a `TypeError` inside the `try` block. -/
theorem post_parsed_body_cx :
    serverStep 7 [] ⟨"POST", "/items", some .null⟩ =
      ([], ⟨400, .json (msg "Invalid request")⟩) := by
  rfl

/-- C1 (amended): for every POST /items whose body parses as JSON to a
non-null value `v`, exactly one item `⟨t, v.name⟩` is appended (id is the
`Date.now()` timestamp `t`), the response is 201, a subsequent GET /items
returns the serialised new store, and the serialisation of the new element
carries an integer `"id"` field equal to `t` and, when the posted name is
defined, a `"name"` field equal to it. -/
theorem post_items_appends (t t2 : Int) (s : List Item) (v : JSValue)
    (hv : v ≠ .null) :
    serverStep t s ⟨"POST", "/items", some v⟩ =
      (s ++ [⟨t, nameOf v⟩], ⟨201, .json (msg "Item added")⟩) ∧
    serverStep t2 (s ++ [⟨t, nameOf v⟩]) ⟨"GET", "/items", none⟩ =
      (s ++ [⟨t, nameOf v⟩],
       ⟨200, .json (.arr (s.map itemToJSON ++ [itemToJSON ⟨t, nameOf v⟩]))⟩) ∧
    jsGetField (itemToJSON ⟨t, nameOf v⟩) "id" = some (.num t) ∧
    (∀ x, nameOf v = some x →
      jsGetField (itemToJSON ⟨t, nameOf v⟩) "name" = some x) := by
  refine ⟨?_, ?_, ?_, ?_⟩
  · rw [serverStep_post]
    simp [postStep, jsGetName_of_ne_null hv]
  · rw [serverStep_get]
    simp
  · cases hnm : nameOf v <;>
      simp [itemToJSON, jsGetField, jsLookup, List.lookup, hnm]
  · intro x hx
    rw [hx]
    simp [itemToJSON, jsGetField, jsLookup, List.lookup]

theorem post_items_appends_witness :
    serverStep 7 [] ⟨"POST", "/items", some (.obj [("name", .str "X")])⟩ =
      ([⟨7, some (.str "X")⟩], ⟨201, .json (msg "Item added")⟩) ∧
    serverStep 8 [⟨7, some (.str "X")⟩] ⟨"GET", "/items", none⟩ =
      ([⟨7, some (.str "X")⟩],
       ⟨200, .json (.arr [.obj [("id", .num 7), ("name", .str "X")]])⟩) := by
  have h := post_items_appends 7 8 [] (.obj [("name", .str "X")])
    (by intro h; cases h)
  exact ⟨h.1, h.2.1⟩

/-- C9: POST /items answers 400 exactly when the body fails to parse as
JSON or parses to JSON `null` (whose `.name` access throws); every other
JSON body — objects without a name field, numbers, strings, booleans,
arrays — yields 201 and appends one item whose name is the parsed value's
name property, `undefined` (`none`) when absent. -/
theorem post_status_characterisation (t : Int) (s : List Item)
    (b : Option JSValue) :
    ((serverStep t s ⟨"POST", "/items", b⟩).2.status = 400 ↔
      b = none ∨ b = some .null) ∧
    (∀ v, b = some v → v ≠ .null →
      serverStep t s ⟨"POST", "/items", b⟩ =
        (s ++ [⟨t, nameOf v⟩], ⟨201, .json (msg "Item added")⟩)) := by
  rw [serverStep_post]
  constructor
  · cases b with
    | none => simp [postStep]
    | some v =>
      cases v <;> simp [postStep, jsGetName]
  · intro v hb hv
    subst hb
    simp [postStep, jsGetName_of_ne_null hv]

theorem post_status_characterisation_witness :
    serverStep 7 [] ⟨"POST", "/items", some (.num 5)⟩ =
      ([⟨7, none⟩], ⟨201, .json (msg "Item added")⟩) :=
  (post_status_characterisation 7 [] (some (.num 5))).2 (.num 5) rfl
    (by intro h; cases h)

/-- C4: the router selects the handler by the stated precedence — root
path (any method) serves the 200 HTML UI; /items + GET the 200 JSON list;
/items + POST the create handler; /items/{id} + PUT the update handler;
/items/{id} + DELETE the delete handler — and every request matching none
of these conditions gets 404 with JSON body `{"message":"Not Found"}`,
with the store untouched. -/
theorem router_dispatch (t : Int) (s : List Item) (m p : String)
    (b : Option JSValue) :
    (p = "/" → serverStep t s ⟨m, p, b⟩ = (s, ⟨200, .html⟩)) ∧
    (p = "/items" → m = "GET" →
      serverStep t s ⟨m, p, b⟩ = (s, ⟨200, .json (.arr (s.map itemToJSON))⟩)) ∧
    (p = "/items" → m = "POST" →
      serverStep t s ⟨m, p, b⟩ = postStep t s b) ∧
    (jsStartsWith p "/items/" = true → m = "PUT" →
      serverStep t s ⟨m, p, b⟩ = putStep s (jsParseInt (pathSegment2 p)) b) ∧
    (jsStartsWith p "/items/" = true → m = "DELETE" →
      serverStep t s ⟨m, p, b⟩ = delStep s (jsParseInt (pathSegment2 p))) ∧
    (p ≠ "/" → ¬(p = "/items" ∧ m = "GET") → ¬(p = "/items" ∧ m = "POST") →
     ¬(jsStartsWith p "/items/" = true ∧ m = "PUT") →
     ¬(jsStartsWith p "/items/" = true ∧ m = "DELETE") →
      serverStep t s ⟨m, p, b⟩ = (s, ⟨404, .json (msg "Not Found")⟩)) := by
  refine ⟨?_, ?_, ?_, ?_, ?_, ?_⟩
  · intro hp
    subst hp
    simp [serverStep]
  · intro hp hm
    subst hp
    subst hm
    exact serverStep_get t s b
  · intro hp hm
    subst hp
    subst hm
    exact serverStep_post t s b
  · intro hp hm
    subst hm
    exact serverStep_put t s p b hp
  · intro hp hm
    subst hm
    exact serverStep_del t s p b hp
  · intro h1 h2 h3 h4 h5
    simp only [serverStep]
    rw [if_neg h1, if_neg h2, if_neg h3, if_neg h4, if_neg h5]

theorem router_dispatch_witness :
    serverStep 0 [] ⟨"GET", "/nope", none⟩ =
      ([], ⟨404, .json (msg "Not Found")⟩) :=
  (router_dispatch 0 [] "GET" "/nope" none).2.2.2.2.2
    (by decide) (by decide) (by decide) (by decide) (by decide)

/-- C2 counterexample: a PUT /items/1 whose body `"null"` parses as JSON,
against a store that does contain an item with id 1, answers 400 and
leaves the item's name unchanged — not 200 with the name overwritten —
because `parsedBody.name` throws on `null`. -/
theorem put_parsed_body_cx :
    serverStep 9 [⟨1, some (.str "a")⟩] ⟨"PUT", "/items/1", some .null⟩ =
      ([⟨1, some (.str "a")⟩], ⟨400, .json (msg "Invalid request")⟩) := by
  rfl

/-- C2 (amended): for a PUT /items/{id} request — if the body fails to
parse, the answer is 400 with the store unchanged; if the body parses and
no stored item's id equals the parsed integer (in particular when {id}
parses to `NaN`), the answer is 404 with the store unchanged; if the body
parses to a non-null value and some item matches, the first such item's
name is overwritten with the body's name and the answer is 200; if the
body parses to `null` and some item matches, the answer is 400 with the
store unchanged. -/
theorem put_update_spec (t : Int) (s : List Item) (p : String)
    (b : Option JSValue) (hp : jsStartsWith p "/items/" = true) :
    (b = none →
      serverStep t s ⟨"PUT", p, b⟩ = (s, ⟨400, .json (msg "Invalid request")⟩)) ∧
    (∀ v, b = some v →
      ((∀ x ∈ s, eqId x.id (jsParseInt (pathSegment2 p)) = false) →
        serverStep t s ⟨"PUT", p, b⟩ = (s, ⟨404, .json (msg "Item not found")⟩)) ∧
      (∀ it, s.find? (fun x => eqId x.id (jsParseInt (pathSegment2 p))) = some it →
        (v ≠ .null →
          serverStep t s ⟨"PUT", p, b⟩ =
            (updateFirst s (jsParseInt (pathSegment2 p)) (nameOf v),
             ⟨200, .json (msg "Item updated")⟩)) ∧
        (v = .null →
          serverStep t s ⟨"PUT", p, b⟩ =
            (s, ⟨400, .json (msg "Invalid request")⟩)))) := by
  rw [serverStep_put t s p b hp]
  constructor
  · intro hb
    subst hb
    rfl
  · intro v hb
    subst hb
    constructor
    · intro hnone
      have hf : s.find? (fun x => eqId x.id (jsParseInt (pathSegment2 p))) = none := by
        rw [List.find?_eq_none]
        intro x hx
        simp [hnone x hx]
      simp [putStep, hf]
    · intro it hf
      constructor
      · intro hv
        simp [putStep, hf, jsGetName_of_ne_null hv]
      · intro hv
        subst hv
        simp [putStep, hf, jsGetName]

theorem put_update_spec_witness :
    serverStep 2 [⟨1, some (.str "a")⟩]
        ⟨"PUT", "/items/1", some (.obj [("name", .str "Y")])⟩ =
      ([⟨1, some (.str "Y")⟩], ⟨200, .json (msg "Item updated")⟩) := by
  have h := (((put_update_spec 2 [⟨1, some (.str "a")⟩] "/items/1"
      (some (.obj [("name", .str "Y")])) (by decide)).2
        (.obj [("name", .str "Y")]) rfl).2
          ⟨1, some (.str "a")⟩ rfl).1 (by intro h; cases h)
  rw [h]
  rfl

/-- C7: whenever a PUT /items/{id} request answers 200, the store splits
as `pre ++ it :: post` with no match in `pre` and `it` the first match,
and the new store is `pre ++ ⟨it.id, nm⟩ :: post`: only the first matching
item's name changed, its id is kept, every other item and the relative
order are untouched, and the length is unchanged. -/
theorem put_frame (t : Int) (s : List Item) (p : String) (b : Option JSValue)
    (hp : jsStartsWith p "/items/" = true)
    (h200 : (serverStep t s ⟨"PUT", p, b⟩).2.status = 200) :
    ∃ pre it post nm,
      s = pre ++ it :: post ∧
      (∀ x ∈ pre, eqId x.id (jsParseInt (pathSegment2 p)) = false) ∧
      eqId it.id (jsParseInt (pathSegment2 p)) = true ∧
      (serverStep t s ⟨"PUT", p, b⟩).1 = pre ++ ⟨it.id, nm⟩ :: post ∧
      (serverStep t s ⟨"PUT", p, b⟩).1.length = s.length := by
  rw [serverStep_put t s p b hp] at h200 ⊢
  match b with
  | none => simp [putStep] at h200
  | some v =>
    simp only [putStep] at h200 ⊢
    match hf : s.find? (fun x => eqId x.id (jsParseInt (pathSegment2 p))) with
    | none =>
      rw [hf] at h200
      simp at h200
    | some it0 =>
      rw [hf] at h200 ⊢
      match hv : jsGetName v with
      | .error e =>
        rw [hv] at h200
        simp at h200
      | .ok nm =>
        obtain ⟨pre, post, hs, hpre, hit, hu⟩ :=
          updateFirst_split s (jsParseInt (pathSegment2 p)) nm it0 hf
        refine ⟨pre, it0, post, nm, hs, hpre, hit, by simpa using hu, ?_⟩
        simp only [hu]
        rw [hs]
        simp

theorem put_frame_witness :
    ∃ pre it post nm,
      ([⟨1, some (.str "a")⟩, ⟨2, some (.str "b")⟩] : List Item) =
        pre ++ it :: post ∧
      (∀ x ∈ pre, eqId x.id (jsParseInt (pathSegment2 "/items/2")) = false) ∧
      eqId it.id (jsParseInt (pathSegment2 "/items/2")) = true ∧
      (serverStep 4 [⟨1, some (.str "a")⟩, ⟨2, some (.str "b")⟩]
          ⟨"PUT", "/items/2", some (.obj [("name", .str "c")])⟩).1 =
        pre ++ ⟨it.id, nm⟩ :: post ∧
      (serverStep 4 [⟨1, some (.str "a")⟩, ⟨2, some (.str "b")⟩]
          ⟨"PUT", "/items/2", some (.obj [("name", .str "c")])⟩).1.length =
        ([⟨1, some (.str "a")⟩, ⟨2, some (.str "b")⟩] : List Item).length :=
  put_frame 4 [⟨1, some (.str "a")⟩, ⟨2, some (.str "b")⟩] "/items/2"
    (some (.obj [("name", .str "c")])) (by decide) rfl

/-- C6 counterexample: from the empty store, one POST whose body is the
JSON number 5 (a valid JSON body) reaches the store `[⟨7, undefined⟩]`,
whose single item has a name that is not a string — the claimed invariant
"every stored item has a name that is a string" fails. -/
theorem store_name_string_cx :
    Reachable [⟨7, none⟩] ∧ nameIsStr ⟨7, none⟩ = false := by
  constructor
  · have h : (serverStep 7 [] ⟨"POST", "/items", some (.num 5)⟩).1 =
        [⟨7, none⟩] := rfl
    exact h ▸ Reachable.step 7 ⟨"POST", "/items", some (.num 5)⟩ Reachable.empty
  · rfl

/-- If a request is `goodBody` and its body stores a name (`jsGetName`
returns `.ok nm`), that name is a string. -/
theorem goodBody_name {req : Request} {v : JSValue} {nm : Option JSValue}
    (hg : goodBody req = true) (hb : req.body = some v)
    (hv : jsGetName v = .ok nm) : ∃ s0, nm = some (.str s0) := by
  simp only [goodBody, hb, hv] at hg
  match nm, hg with
  | some (.str s0), _ => exact ⟨s0, rfl⟩

/-- C6 (amended): every item of a store reachable from the empty store has
an integer (hence non-null) id, and — provided every request body that
stores a name supplies a string one (`goodBody`) — a name that is a
string.  Without that proviso the name can be any JSON value or
`undefined`, as the counterexample shows. -/
theorem store_names_good (s : List Item) (h : ReachableGood s) :
    ∀ it ∈ s, (∃ n : Int, it.id = n) ∧ nameIsStr it = true := by
  induction h with
  | empty => simp
  | step t req hs hg ih =>
    intro it hit
    rcases mem_serverStep hit with hmem | ⟨v, nm, hb, hv, hname⟩
    · exact ih it hmem
    · refine ⟨⟨it.id, rfl⟩, ?_⟩
      obtain ⟨s0, hnm⟩ := goodBody_name hg hb hv
      subst hnm
      simp [nameIsStr, hname]

theorem store_names_good_witness :
    nameIsStr ⟨7, some (.str "X")⟩ = true := by
  have hr : ReachableGood [⟨7, some (.str "X")⟩] := by
    have h : (serverStep 7 []
        ⟨"POST", "/items", some (.obj [("name", .str "X")])⟩).1 =
          [⟨7, some (.str "X")⟩] := rfl
    exact h ▸ ReachableGood.step 7 ⟨"POST", "/items", some (.obj [("name", .str "X")])⟩
      ReachableGood.empty rfl
  exact (store_names_good [⟨7, some (.str "X")⟩] hr ⟨7, some (.str "X")⟩
    (by simp)).2
